import Mathlib

/-!
# Verification of the DTBP buying-power engine

Shallow embedding of `src/services/engine.ts` (the margin engine of the
DTBPPrototype repository) together with the data model of `src/types.ts`.
JavaScript numbers are modelled as exact rationals (`ℚ`); all arithmetic in
the source is plain field arithmetic, so `ℚ` is a faithful carrier for the
values the claims are about.

The file has two engine embeddings, mirroring the two `calculateBuyingPower`
implementations found in `src/services/engine.ts`:

* `calculateBuyingPower` — the canonical engine ("CONSERVATIVE MARGIN ENGINE
  (Custom House Rules Included)", first implementation in the file), and
* `calculateBuyingPowerConservative` — the call-avoidance variant
  ("CONSERVATIVE ENGINE (Call-Avoidance Mode)", second implementation).
-/

/-! ## Data model (src/types.ts) -/

inductive BrokerType
  | GENERIC_FINRA
  | FIDELITY
  | SCHWAB_TOS
deriving DecidableEq, Repr

inductive AccountType
  | MARGIN
  | CASH
deriving DecidableEq, Repr

inductive InstrumentType
  | STOCK
  | OPTION
  | ETF_LEVERAGED
deriving DecidableEq, Repr

inductive Side
  | BUY
  | SELL
  | SELL_SHORT
  | BUY_TO_COVER
deriving DecidableEq, Repr

structure Trade where
  id : String
  timestamp : ℚ
  symbol : String
  instrument : InstrumentType
  side : Side
  quantity : ℚ
  price : ℚ
  fees : ℚ
  leverageFactor : Option ℚ := none
  notes : Option String := none
deriving DecidableEq, Repr

structure AccountSettings where
  broker : BrokerType
  accountType : AccountType
  isPDT : Bool
  startOfDayEquity : ℚ
  startOfDayMaintReq : ℚ
  startOfDayCash : ℚ
  startOfDayDTBP : Option ℚ := none
  maintenanceMarginPct : ℚ
deriving DecidableEq, Repr

/-- An open-position record: `{ quantity, avgPrice }` in the source. -/
structure Pos where
  quantity : ℚ
  avgPrice : ℚ
deriving DecidableEq, Repr

structure CalculationResult where
  currentEquity : ℚ
  currentCash : ℚ
  stockBP : ℚ
  optionBP : ℚ
  dtbpStartOfDay : ℚ
  intradayBP : ℚ
  warnings : List String
  auditLog : List String
  openPositions : List (String × Pos)
deriving DecidableEq, Repr

/-- `DEFAULT_SETTINGS` from src/types.ts. -/
def DEFAULT_SETTINGS : AccountSettings :=
  { broker := BrokerType.GENERIC_FINRA
    accountType := AccountType.MARGIN
    isPDT := true
    startOfDayEquity := 30000
    startOfDayMaintReq := 0
    startOfDayCash := 30000
    startOfDayDTBP := some 0
    maintenanceMarginPct := 0.25 }

/-! ## String helpers

`symbol.toUpperCase()` in the source.  We embed ASCII upper-casing directly
(char-by-char), which agrees with JavaScript `toUpperCase` on the ASCII
ticker symbols this program manipulates. -/

def charUpper (c : Char) : Char :=
  if 'a' ≤ c ∧ c ≤ 'z' then Char.ofNat (c.toNat - 32) else c

def strUpper (s : String) : String := ⟨s.data.map charUpper⟩

/-! ## Position-map helpers

`openPositions` is a JavaScript `Record<string, {quantity, avgPrice}>`;
we embed it as an insertion-ordered association list. -/

/-- Key lookup (`openPositions[symbol]`). -/
def posLookup (ps : List (String × Pos)) (sym : String) : Option Pos :=
  ps.lookup sym

/-- Key assignment (`openPositions[symbol] = p`): update in place when the
key exists, append otherwise. -/
def posSet : List (String × Pos) → String → Pos → List (String × Pos)
  | [], sym, p => [(sym, p)]
  | (k, v) :: rest, sym, p =>
      if k = sym then (k, p) :: rest else (k, v) :: posSet rest sym p

/-- `delete openPositions[symbol]`. -/
def posErase (ps : List (String × Pos)) (sym : String) : List (String × Pos) :=
  ps.filter (fun kv => kv.1 != sym)

/-- `if (!openPositions[symbol]) openPositions[symbol] = {quantity: 0, avgPrice: 0}`. -/
def ensurePos (ps : List (String × Pos)) (sym : String) : List (String × Pos) :=
  if (posLookup ps sym).isNone then ps ++ [(sym, ⟨0, 0⟩)] else ps

/-! ## Warning de-duplication

`Array.from(new Set(warnings))` keeps the first occurrence of each string,
in order. -/

def dedupFirst : List String → List String
  | [] => []
  | x :: xs => x :: dedupFirst (xs.filter (fun y => y != x))
termination_by l => l.length
decreasing_by
  simp only [List.length_cons]
  exact Nat.lt_succ_of_le (List.length_filter_le _ _)

/-! ## Shared per-trade quantities (canonical engine, src/services/engine.ts) -/

/-- `trade.leverageFactor || 1` (JavaScript falsiness: absent or `0` gives `1`). -/
def leverageFactorOf (t : Trade) : ℚ :=
  match t.leverageFactor with
  | none => 1
  | some l => if l = 0 then 1 else l

/-- `multiplier = isOption ? 100 : 1`. -/
def multiplierOf (t : Trade) : ℚ :=
  if t.instrument = InstrumentType.OPTION then 100 else 1

/-- `tradeNotional = trade.quantity * trade.price * multiplier`. -/
def tradeNotional (t : Trade) : ℚ :=
  t.quantity * t.price * multiplierOf t

/-- `totalCost = tradeNotional + trade.fees`. -/
def totalCost (t : Trade) : ℚ :=
  tradeNotional t + t.fees

/-- `isEntryLong || isEntryShort`: a BUY or SELL_SHORT. -/
def Side.isEntry : Side → Bool
  | Side.BUY => true
  | Side.SELL_SHORT => true
  | _ => false

/-- `isExitLong || isExitShort`: a SELL or BUY_TO_COVER. -/
def Side.isExit : Side → Bool
  | Side.SELL => true
  | Side.BUY_TO_COVER => true
  | _ => false

/-- `SPECIAL_MARGIN_REQS` lookup table from src/services/engine.ts. -/
def SPECIAL_MARGIN_REQS (sym : String) : Option ℚ :=
  if sym = "AVGO" then some 0.30
  else if sym = "SPY" then some 0.30
  else if sym = "QQQ" then some 0.30
  else if sym = "TSLA" then some 0.40
  else if sym = "NVDA" then some 0.30
  else if sym = "GS" then some 0.30
  else if sym = "GOOG" then some 0.30
  else if sym = "AMD" then some 0.30
  else if sym = "MSTR" then some 1.00
  else if sym = "GLD" then some 0.30
  else none

/-- The table value for the trade's upper-cased symbol, defaulted to 0.
`SPECIAL_MARGIN_REQS[symbol]` is truthy in JavaScript exactly when this
is non-zero (the table holds only non-zero numbers). -/
def specialReq (t : Trade) : ℚ :=
  (SPECIAL_MARGIN_REQS (strUpper t.symbol)).getD 0

/-- Margin requirement percentage selection (section B of the canonical
engine): options 100%; else the `SPECIAL_MARGIN_REQS` entry (raised to at
least 40% for short entries); else the generic short rule; else the
leveraged-ETF rule; else the 25% default. -/
def reqPercentOf (t : Trade) : ℚ :=
  if t.instrument = InstrumentType.OPTION then 1.00
  else if specialReq t ≠ 0 then
    (if t.side = Side.SELL_SHORT then max (specialReq t) 0.40 else specialReq t)
  else if t.side = Side.SELL_SHORT then
    (if t.instrument = InstrumentType.ETF_LEVERAGED
      then min (0.40 * leverageFactorOf t) 1.0 else 0.40)
  else if t.instrument = InstrumentType.ETF_LEVERAGED then
    min (0.25 * leverageFactorOf t) 1.0
  else 0.25

/-- DTBP consumption of an entry (section A of the canonical engine):
options consume `totalCost` 1:1; leveraged ETFs with factor above 1 multiply
by `min(leverageFactor, 4)`; everything else consumes `totalCost`. -/
def dtbpConsumption (t : Trade) : ℚ :=
  if t.instrument = InstrumentType.OPTION then totalCost t
  else if t.instrument = InstrumentType.ETF_LEVERAGED ∧ 1 < leverageFactorOf t then
    totalCost t * min (leverageFactorOf t) 4
  else totalCost t

/-! ## Canonical engine replay state -/

structure EngineState where
  dtbpUsed : ℚ
  currentEquity : ℚ
  currentMaintenanceReq : ℚ
  openPositions : List (String × Pos)
  warnings : List String
  auditLog : List String
deriving DecidableEq, Repr

/-- Section A: `if (isEntry) dtbpUsed += consumption`. -/
def newDtbpUsed (st : EngineState) (t : Trade) : ℚ :=
  if t.side.isEntry then st.dtbpUsed + dtbpConsumption t else st.dtbpUsed

/-- Section B: entries add `tradeReq`, exits subtract it (no clamping). -/
def newMaintenanceReq (st : EngineState) (t : Trade) : ℚ :=
  if t.side.isEntry then st.currentMaintenanceReq + tradeNotional t * reqPercentOf t
  else st.currentMaintenanceReq - tradeNotional t * reqPercentOf t

/-- Realized P&L of an exit against the stored weighted-average cost; zero
when no position is open for the (upper-cased) symbol. -/
def exitPnl (st : EngineState) (t : Trade) : ℚ :=
  match posLookup st.openPositions (strUpper t.symbol) with
  | some pos =>
      if t.side = Side.SELL then tradeNotional t - pos.avgPrice * t.quantity
      else if t.side = Side.BUY_TO_COVER then pos.avgPrice * t.quantity - tradeNotional t
      else 0
  | none => 0

/-- Section B equity update: entries pay fees; exits realize P&L then pay fees. -/
def newEquity (st : EngineState) (t : Trade) : ℚ :=
  if t.side.isEntry then st.currentEquity - t.fees
  else st.currentEquity + exitPnl st t - t.fees

/-- Section C: position tracking with weighted-average blending on entries,
quantity-only reduction on exits, and deletion below the 0.0001 epsilon. -/
def newPositions (st : EngineState) (t : Trade) : List (String × Pos) :=
  let symbol := strUpper t.symbol
  let ps0 := ensurePos st.openPositions symbol
  let pos := (posLookup ps0 symbol).getD ⟨0, 0⟩
  let ps1 :=
    if t.side.isEntry then
      let newQty := pos.quantity + t.quantity
      if 0 < newQty then
        posSet ps0 symbol ⟨newQty, (pos.quantity * pos.avgPrice + tradeNotional t) / newQty⟩
      else posSet ps0 symbol ⟨newQty, pos.avgPrice⟩
    else
      posSet ps0 symbol ⟨pos.quantity - t.quantity, pos.avgPrice⟩
  if ((posLookup ps1 symbol).getD ⟨0, 0⟩).quantity ≤ 0.0001 then posErase ps1 symbol
  else ps1

def dtbpViolationMsg (id : String) : String :=
  "VIOLATION: DTBP Exceeded on Trade " ++ id

def marginCallMsg : String :=
  "CRITICAL: MARGIN CALL PREDICTED. Equity < Requirement."

def bpDepletedMsg : String :=
  "CRITICAL: Stock Buying Power Depleted"

/-- Section D: the two per-trade warning pushes, written as appends of
zero-or-one-element lists. -/
def newWarnings (cap : ℚ) (st : EngineState) (t : Trade) : List String :=
  st.warnings
    ++ (if cap - newDtbpUsed st t < 0 then [dtbpViolationMsg t.id] else [])
    ++ (if newEquity st t - newMaintenanceReq st t < 0 then [marginCallMsg] else [])

/-- The audit line pushed for entries on symbols of the special table. -/
def newAuditLog (st : EngineState) (t : Trade) : List String :=
  if t.side.isEntry ∧ specialReq t ≠ 0 then
    st.auditLog ++
      ["   -> Custom Rule Applied for " ++ strUpper t.symbol ++ ": " ++
        toString (reqPercentOf t * 100) ++ "% Margin Req"]
  else st.auditLog

/-- One iteration of the canonical engine's trade loop. -/
def processTrade (cap : ℚ) (st : EngineState) (t : Trade) : EngineState :=
  { dtbpUsed := newDtbpUsed st t
    currentEquity := newEquity st t
    currentMaintenanceReq := newMaintenanceReq st t
    openPositions := newPositions st t
    warnings := newWarnings cap st t
    auditLog := newAuditLog st t }

/-! ## Settings resolver and trade sequencer -/

/-- `maintenanceExcessStart = Math.max(0, startEquity - settings.startOfDayMaintReq)`. -/
def maintenanceExcessStart (s : AccountSettings) : ℚ :=
  max 0 (s.startOfDayEquity - s.startOfDayMaintReq)

/-- `settings.startOfDayDTBP && settings.startOfDayDTBP > 0 ? startOfDayDTBP
: (isPDT ? excess * 4 : excess * 2)`.  The JavaScript `&&` first tests
truthiness (non-zero), then positivity.  Both engine implementations compute
their starting cap with this same expression. -/
def dtbpCap (s : AccountSettings) : ℚ :=
  match s.startOfDayDTBP with
  | some d =>
      if d ≠ 0 ∧ 0 < d then d
      else if s.isPDT then maintenanceExcessStart s * 4 else maintenanceExcessStart s * 2
  | none =>
      if s.isPDT then maintenanceExcessStart s * 4 else maintenanceExcessStart s * 2

/-- Comparator of `[...trades].sort((a, b) => a.timestamp - b.timestamp)`. -/
def tradeLe (a b : Trade) : Bool :=
  decide (a.timestamp ≤ b.timestamp)

/-- The trade sequencer: JavaScript `Array.prototype.sort` is a stable sort,
embedded with the (stable) `List.mergeSort`. -/
def sortTrades (trades : List Trade) : List Trade :=
  trades.mergeSort tradeLe

def initState (s : AccountSettings) : EngineState :=
  { dtbpUsed := 0
    currentEquity := s.startOfDayEquity
    currentMaintenanceReq := 0
    openPositions := []
    warnings := []
    auditLog := ["[Init] Equity: $" ++ toString s.startOfDayEquity ++
      " | DTBP Cap: $" ++ toString (dtbpCap s)] }

/-- The terminal replay state of the canonical engine. -/
def replayState (s : AccountSettings) (trades : List Trade) : EngineState :=
  (sortTrades trades).foldl (processTrade (dtbpCap s)) (initState s)

/-- The replay state after the first `n` (sorted) trades. -/
def statesAfter (s : AccountSettings) (trades : List Trade) (n : ℕ) : EngineState :=
  ((sortTrades trades).take n).foldl (processTrade (dtbpCap s)) (initState s)

/-- The canonical `calculateBuyingPower` (first implementation in
src/services/engine.ts): replay, then synthesize the result snapshot. -/
def calculateBuyingPower (s : AccountSettings) (trades : List Trade) : CalculationResult :=
  let st := replayState s trades
  let finalDTBP := max 0 (dtbpCap s - st.dtbpUsed)
  let finalExcess := max 0 (st.currentEquity - st.currentMaintenanceReq)
  let optionBP := finalExcess
  let stockBP := min finalDTBP (finalExcess * 4)
  let warnings := if stockBP ≤ 0 then st.warnings ++ [bpDepletedMsg] else st.warnings
  { currentEquity := st.currentEquity
    currentCash := optionBP
    stockBP := stockBP
    optionBP := optionBP
    dtbpStartOfDay := dtbpCap s
    intradayBP := stockBP
    warnings := dedupFirst warnings
    auditLog := st.auditLog
    openPositions := st.openPositions }

/-! ## Conservative variant (second implementation in src/services/engine.ts,
"CONSERVATIVE ENGINE (Call-Avoidance Mode)") -/

/-- `BUY || BUY_TO_COVER`: trades that spend settled cash. -/
def Side.requiresCashOutlay : Side → Bool
  | Side.BUY => true
  | Side.BUY_TO_COVER => true
  | _ => false

/-- DTBP consumption of an entry in the conservative variant: options
consume `totalCost` 1:1; non-options consume `totalCost`, multiplied by the
(uncapped) leverage factor only under the Schwab broker rule. -/
def consConsumption (s : AccountSettings) (t : Trade) : ℚ :=
  if t.instrument = InstrumentType.OPTION then totalCost t
  else if s.broker = BrokerType.SCHWAB_TOS ∧ t.instrument = InstrumentType.ETF_LEVERAGED
      ∧ 1 < leverageFactorOf t then
    totalCost t * leverageFactorOf t
  else totalCost t

structure ConsState where
  spendableCash : ℚ
  pendingCash : ℚ
  dtbpUsed : ℚ
  intradayBP : ℚ
  openPositions : List (String × Pos)
  warnings : List String
  auditLog : List String
deriving DecidableEq, Repr

/-- Section 2B: BUY / BUY_TO_COVER spend cash; SELL proceeds go to pending. -/
def consNewSpendable (st : ConsState) (t : Trade) : ℚ :=
  if t.side.requiresCashOutlay then st.spendableCash - totalCost t else st.spendableCash

def consNewPending (st : ConsState) (t : Trade) : ℚ :=
  if t.side.requiresCashOutlay then st.pendingCash
  else if t.side = Side.SELL then st.pendingCash + (tradeNotional t - t.fees)
  else st.pendingCash

/-- Section 2C: entries consume DTBP; exits never re-credit it. -/
def consNewDtbpUsed (s : AccountSettings) (st : ConsState) (t : Trade) : ℚ :=
  if t.side.isEntry then st.dtbpUsed + consConsumption s t else st.dtbpUsed

/-- Section 2D position tracking of the variant (keyed by the raw symbol):
signed-quantity netting, `avgPrice` overwritten with the trade price on
entries, deletion on exact zero. -/
def consNewPositions (st : ConsState) (t : Trade) : List (String × Pos) :=
  let ps0 := ensurePos st.openPositions t.symbol
  let pos := (posLookup ps0 t.symbol).getD ⟨0, 0⟩
  let ps1 :=
    if t.side.isEntry then
      let direction : ℚ := if t.side = Side.BUY then 1 else -1
      posSet ps0 t.symbol ⟨pos.quantity + t.quantity * direction, t.price⟩
    else
      let direction : ℚ := if t.side = Side.SELL then -1 else 1
      posSet ps0 t.symbol ⟨pos.quantity + t.quantity * direction, pos.avgPrice⟩
  if ((posLookup ps1 t.symbol).getD ⟨0, 0⟩).quantity = 0 then posErase ps1 t.symbol
  else ps1

/-- Sections 2A and 2E: pre-trade projections and hard-stop warnings.
The numeric amounts interpolated by the source (`toFixed(2)`) are rendered
with `toString`. -/
def consNewWarnings (s : AccountSettings) (dtbpStart : ℚ) (st : ConsState) (t : Trade) :
    List String :=
  st.warnings
    ++ (if t.side.requiresCashOutlay ∧ st.spendableCash - totalCost t < 0 then
          ["Insufficient SPENDABLE CASH for trade " ++ t.id ++ ". (Required: $" ++
            toString (totalCost t) ++ ", Available: $" ++ toString st.spendableCash ++ ")"]
        else [])
    ++ (if t.side.isEntry ∧ dtbpStart - (st.dtbpUsed + consConsumption s t) < 0 then
          ["DTBP would be exceeded by trade " ++ t.id ++ " (Call-avoidance mode)."]
        else [])
    ++ (if dtbpStart - consNewDtbpUsed s st t < 0 then
          ["CRITICAL: DTBP Exceeded after trade " ++ t.id ++ "."]
        else [])
    ++ (if consNewSpendable st t < 0 then
          ["CRITICAL: Spendable Cash negative after trade " ++ t.id ++ "."]
        else [])

/-- The variant's per-trade audit narration (content abbreviated to the
identifying prefixes; no claim concerns the audit text). -/
def consNewAuditLog (st : ConsState) (t : Trade) : List String :=
  st.auditLog
    ++ ["--- Trade " ++ t.id ++ " ---"]
    ++ (if t.side.isEntry then ["DTBP Used increased"]
        else ["DTBP: Exit trade does NOT recycle BP (Conservative)."])

/-- One iteration of the conservative variant's trade loop. -/
def processTradeCons (s : AccountSettings) (dtbpStart : ℚ) (st : ConsState) (t : Trade) :
    ConsState :=
  { spendableCash := consNewSpendable st t
    pendingCash := consNewPending st t
    dtbpUsed := consNewDtbpUsed s st t
    intradayBP := dtbpStart - consNewDtbpUsed s st t
    openPositions := consNewPositions st t
    warnings := consNewWarnings s dtbpStart st t
    auditLog := consNewAuditLog st t }

def consInitState (s : AccountSettings) : ConsState :=
  { spendableCash := s.startOfDayCash
    pendingCash := 0
    dtbpUsed := 0
    intradayBP := dtbpCap s
    openPositions := []
    warnings := []
    auditLog := ["Initialization", "Start-of-Day DTBP set (Conservative Mode)"] }

def consReplayState (s : AccountSettings) (trades : List Trade) : ConsState :=
  (sortTrades trades).foldl (processTradeCons s (dtbpCap s)) (consInitState s)

/-- The conservative `calculateBuyingPower` variant (second implementation in
src/services/engine.ts).  Note: its `stockBP` is the raw
`dtbpStart - dtbpUsed`, with no clamp at zero. -/
def calculateBuyingPowerConservative (s : AccountSettings) (trades : List Trade) :
    CalculationResult :=
  let st := consReplayState s trades
  { currentEquity := s.startOfDayEquity
    currentCash := st.spendableCash + st.pendingCash
    stockBP := st.intradayBP
    optionBP := max 0 st.spendableCash
    dtbpStartOfDay := dtbpCap s
    intradayBP := st.intradayBP
    warnings := dedupFirst st.warnings
    auditLog := st.auditLog
    openPositions := st.openPositions }

/-! ## Concrete inputs used by the witnesses and counterexamples -/

/-- Scenario 1 of the spec and of the repository's invariant test:
`BUY 100 SPY @ 100, fees 0`. -/
def scenario1Trade : Trade :=
  { id := "1", timestamp := 0, symbol := "SPY", instrument := InstrumentType.STOCK,
    side := Side.BUY, quantity := 100, price := 100, fees := 0 }

/-- An account with no equity and no cash (all monetary fields zero). -/
def zeroSettings : AccountSettings :=
  { broker := BrokerType.GENERIC_FINRA
    accountType := AccountType.MARGIN
    isPDT := true
    startOfDayEquity := 0
    startOfDayMaintReq := 0
    startOfDayCash := 0
    startOfDayDTBP := none
    maintenanceMarginPct := 0.25 }

/-- A plain stock buy of notional 100. -/
def smallBuy : Trade :=
  { id := "1", timestamp := 0, symbol := "AAPL", instrument := InstrumentType.STOCK,
    side := Side.BUY, quantity := 1, price := 100, fees := 0 }

/-- A sell of notional 10000 on a symbol with no open position. -/
def tSellNoPos : Trade :=
  { id := "1", timestamp := 0, symbol := "ZZZ", instrument := InstrumentType.STOCK,
    side := Side.SELL, quantity := 100, price := 100, fees := 0 }

/-- A 3x leveraged-ETF buy of notional 1000 with zero fees (Scenario 4). -/
def levTrade3x : Trade :=
  { id := "1", timestamp := 0, symbol := "TQQQ",
    instrument := InstrumentType.ETF_LEVERAGED, side := Side.BUY,
    quantity := 1, price := 1000, fees := 0, leverageFactor := some 3 }

/-- A sell-short on lower-case "spy", whose upper-cased symbol is in the
special-margin table with value 0.30. -/
def shortSpy : Trade :=
  { id := "1", timestamp := 0, symbol := "spy", instrument := InstrumentType.STOCK,
    side := Side.SELL_SHORT, quantity := 1, price := 10, fees := 0 }

/-- Default settings with equity lowered to 1000 so that a 10000-notional
buy predicts a margin call. -/
def lowEquitySettings : AccountSettings :=
  { DEFAULT_SETTINGS with startOfDayEquity := 1000 }

/-- Settings with a positive broker-reported DTBP override. -/
def overrideSettings : AccountSettings :=
  { DEFAULT_SETTINGS with startOfDayDTBP := some 5000 }

/-- Settings with no DTBP override at all. -/
def computedSettings : AccountSettings :=
  { DEFAULT_SETTINGS with startOfDayDTBP := none }

/-- Two trades with distinct timestamps, given out of order. -/
def wTradeA : Trade :=
  { id := "A", timestamp := 2, symbol := "SPY", instrument := InstrumentType.STOCK,
    side := Side.BUY, quantity := 10, price := 50, fees := 1 }

def wTradeB : Trade :=
  { id := "B", timestamp := 1, symbol := "QQQ", instrument := InstrumentType.STOCK,
    side := Side.SELL, quantity := 5, price := 40, fees := 2 }

/-! ## General lemmas about the embedding -/

theorem totalCost_nonneg (t : Trade) (hq : 0 < t.quantity) (hp : 0 ≤ t.price)
    (hf : 0 ≤ t.fees) : 0 ≤ totalCost t := by
  have hm : 0 ≤ multiplierOf t := by
    unfold multiplierOf
    split_ifs <;> norm_num
  have : 0 ≤ tradeNotional t := mul_nonneg (mul_nonneg hq.le hp) hm
  unfold totalCost
  linarith

theorem dtbpConsumption_nonneg (t : Trade) (h : 0 ≤ totalCost t) :
    0 ≤ dtbpConsumption t := by
  unfold dtbpConsumption
  split_ifs with h1 h2
  · exact h
  · have hlf : (0 : ℚ) ≤ min (leverageFactorOf t) 4 :=
      le_min (le_of_lt (lt_trans zero_lt_one h2.2)) (by norm_num)
    exact mul_nonneg h hlf
  · exact h

theorem Side.isEntry_eq_false_of_isExit {sd : Side} (h : sd.isExit = true) :
    sd.isEntry = false := by
  cases sd <;> simp_all [Side.isEntry, Side.isExit]

theorem SPECIAL_MARGIN_REQS_ne_zero {sym : String} {v : ℚ}
    (h : SPECIAL_MARGIN_REQS sym = some v) : v ≠ 0 := by
  unfold SPECIAL_MARGIN_REQS at h
  split_ifs at h <;>
    first
      | exact Option.noConfusion h
      | (injection h with h2; rw [← h2]; norm_num)

theorem count_dedupFirst (a : String) (l : List String) :
    (dedupFirst l).count a = if a ∈ l then 1 else 0 := by
  induction l using dedupFirst.induct with
  | case1 => simp [dedupFirst]
  | case2 x xs ih =>
    rw [dedupFirst]
    by_cases hax : a = x
    · subst hax
      have hnot : a ∉ xs.filter (fun y => y != a) := by
        intro hmem
        have h2 := (List.mem_filter.mp hmem).2
        simp at h2
      rw [List.count_cons_self, ih, if_neg hnot]
      simp
    · rw [List.count_cons_of_ne hax, ih]
      have hiff : a ∈ xs.filter (fun y => y != x) ↔ a ∈ xs := by
        rw [List.mem_filter]
        constructor
        · exact fun hh => hh.1
        · exact fun hh => ⟨hh, by simpa using hax⟩
      rw [if_congr hiff rfl rfl]
      have : (a ∈ x :: xs) ↔ a ∈ xs := by
        rw [List.mem_cons]
        exact or_iff_right hax
      rw [if_congr this rfl rfl]

/-! ## Replay-state decomposition lemmas -/

theorem statesAfter_succ_of_lt (s : AccountSettings) (trades : List Trade) (n : ℕ)
    (h : n < (sortTrades trades).length) :
    statesAfter s trades (n + 1)
      = processTrade (dtbpCap s) (statesAfter s trades n)
          ((sortTrades trades).get ⟨n, h⟩) := by
  unfold statesAfter
  rw [List.take_succ, List.getElem?_eq_getElem h, List.foldl_append]
  simp only [Option.toList_some, List.foldl_cons, List.foldl_nil, List.get_eq_getElem]

theorem statesAfter_of_length_le (s : AccountSettings) (trades : List Trade) (n : ℕ)
    (h : (sortTrades trades).length ≤ n) :
    statesAfter s trades n = replayState s trades := by
  unfold statesAfter replayState
  rw [List.take_of_length_le h]

theorem replayState_eq_foldl_drop (s : AccountSettings) (trades : List Trade) (n : ℕ) :
    replayState s trades
      = ((sortTrades trades).drop n).foldl (processTrade (dtbpCap s))
          (statesAfter s trades n) := by
  unfold replayState statesAfter
  rw [← List.foldl_append, List.take_append_drop]

/-! ## Warning accumulation lemmas -/

theorem mem_newWarnings_of_mem {a : String} (cap : ℚ) (st : EngineState) (t : Trade)
    (h : a ∈ st.warnings) : a ∈ newWarnings cap st t := by
  simp [newWarnings, h]

theorem mem_warnings_foldl {a : String} (cap : ℚ) (l : List Trade) (st : EngineState)
    (h : a ∈ st.warnings) : a ∈ (l.foldl (processTrade cap) st).warnings := by
  induction l generalizing st with
  | nil => exact h
  | cons t ts ih =>
    rw [List.foldl_cons]
    exact ih _ (mem_newWarnings_of_mem cap st t h)

theorem marginCall_mem_processTrade (cap : ℚ) (st : EngineState) (t : Trade)
    (h : (processTrade cap st t).currentEquity
        - (processTrade cap st t).currentMaintenanceReq < 0) :
    marginCallMsg ∈ (processTrade cap st t).warnings := by
  have h' : newEquity st t - newMaintenanceReq st t < 0 := h
  show marginCallMsg ∈ newWarnings cap st t
  simp [newWarnings, h']

/-! ## DTBP-consumption accumulation lemmas -/

theorem dtbpUsed_step_mono (cap : ℚ) (st : EngineState) (t : Trade)
    (h : 0 ≤ totalCost t) : st.dtbpUsed ≤ (processTrade cap st t).dtbpUsed := by
  show st.dtbpUsed ≤ newDtbpUsed st t
  unfold newDtbpUsed
  split_ifs with he
  · have := dtbpConsumption_nonneg t h
    linarith
  · exact le_refl _

theorem dtbpUsed_foldl_eq (cap : ℚ) (l : List Trade) (st : EngineState) :
    (l.foldl (processTrade cap) st).dtbpUsed
      = st.dtbpUsed + ((l.filter (fun t => t.side.isEntry)).map dtbpConsumption).sum := by
  induction l generalizing st with
  | nil => simp
  | cons t ts ih =>
    rw [List.foldl_cons, ih]
    have hstep : (processTrade cap st t).dtbpUsed = newDtbpUsed st t := rfl
    rw [hstep]
    by_cases he : t.side.isEntry = true
    · simp [newDtbpUsed, he, List.filter_cons]
      ring
    · simp [newDtbpUsed, he, List.filter_cons]

/-! ## Trade-sequencer lemmas -/

theorem tradeLe_trans : ∀ (a b c : Trade), tradeLe a b → tradeLe b c → tradeLe a c := by
  intro a b c hab hbc
  simp only [tradeLe, decide_eq_true_eq] at *
  exact le_trans hab hbc

theorem tradeLe_total : ∀ (a b : Trade), tradeLe a b || tradeLe b a := by
  intro a b
  simp only [tradeLe, Bool.or_eq_true, decide_eq_true_eq]
  exact le_total _ _

theorem sortTrades_pairwise_le (l : List Trade) :
    (sortTrades l).Pairwise (fun a b => a.timestamp ≤ b.timestamp) := by
  have h := List.sorted_mergeSort tradeLe_trans tradeLe_total l
  exact h.imp (fun hab => by simpa [tradeLe] using hab)

theorem eq_of_perm_of_pairwise_lt :
    ∀ {l₁ l₂ : List Trade}, List.Perm l₁ l₂ →
      l₁.Pairwise (fun a b => a.timestamp < b.timestamp) →
      l₂.Pairwise (fun a b => a.timestamp < b.timestamp) → l₁ = l₂ := by
  intro l₁
  induction l₁ with
  | nil =>
    intro l₂ hp _ _
    exact hp.symm.eq_nil.symm
  | cons a t₁ ih =>
    intro l₂ hp h₁ h₂
    cases l₂ with
    | nil => exact absurd hp.eq_nil (List.cons_ne_nil a t₁)
    | cons b t₂ =>
      rcases List.pairwise_cons.mp h₁ with ⟨ha, h₁'⟩
      rcases List.pairwise_cons.mp h₂ with ⟨hb, h₂'⟩
      by_cases hab : a = b
      · subst hab
        rw [ih hp.cons_inv h₁' h₂']
      · exfalso
        have hamem : a ∈ b :: t₂ := hp.mem_iff.mp (List.mem_cons_self a t₁)
        have hbmem : b ∈ a :: t₁ := hp.symm.mem_iff.mp (List.mem_cons_self b t₂)
        have ha2 : a ∈ t₂ := by
          rcases List.mem_cons.mp hamem with h | h
          · exact absurd h hab
          · exact h
        have hb2 : b ∈ t₁ := by
          rcases List.mem_cons.mp hbmem with h | h
          · exact absurd h.symm hab
          · exact h
        exact absurd ((hb a ha2).trans (ha b hb2)) (lt_irrefl _)

theorem sortTrades_pairwise_lt (l : List Trade)
    (hnd : (l.map Trade.timestamp).Nodup) :
    (sortTrades l).Pairwise (fun a b => a.timestamp < b.timestamp) := by
  have hle := sortTrades_pairwise_le l
  have hperm : List.Perm ((sortTrades l).map Trade.timestamp) (l.map Trade.timestamp) :=
    (List.mergeSort_perm l tradeLe).map _
  have hnd' : ((sortTrades l).map Trade.timestamp).Nodup := hperm.nodup_iff.mpr hnd
  have hne : (sortTrades l).Pairwise (fun a b => a.timestamp ≠ b.timestamp) :=
    List.pairwise_map.mp hnd'
  exact (hle.and hne).imp (fun h => lt_of_le_of_ne h.1 h.2)

theorem sortTrades_eq_of_perm {l₁ l₂ : List Trade} (hp : List.Perm l₁ l₂)
    (hnd : (l₁.map Trade.timestamp).Nodup) : sortTrades l₁ = sortTrades l₂ := by
  have hnd₂ : (l₂.map Trade.timestamp).Nodup := ((hp.map _).nodup_iff).mp hnd
  exact eq_of_perm_of_pairwise_lt
    ((List.mergeSort_perm l₁ tradeLe).trans (hp.trans (List.mergeSort_perm l₂ tradeLe).symm))
    (sortTrades_pairwise_lt l₁ hnd) (sortTrades_pairwise_lt l₂ hnd₂)

theorem sortTrades_stable_filter (l : List Trade) (q : ℚ) :
    (sortTrades l).filter (fun t => decide (t.timestamp = q))
      = l.filter (fun t => decide (t.timestamp = q)) := by
  have hmemp : ∀ t ∈ l.filter (fun t => decide (t.timestamp = q)),
      (fun t : Trade => decide (t.timestamp = q)) t = true :=
    fun t ht => (List.mem_filter.mp ht).2
  have hpw : (l.filter (fun t => decide (t.timestamp = q))).Pairwise
      (fun a b => tradeLe a b) := by
    apply List.pairwise_of_forall_mem_list
    intro a hamem b hbmem
    have haq : a.timestamp = q := by simpa using (List.mem_filter.mp hamem).2
    have hbq : b.timestamp = q := by simpa using (List.mem_filter.mp hbmem).2
    simp [tradeLe, haq, hbq]
  have hsub : List.Sublist (l.filter (fun t => decide (t.timestamp = q))) (sortTrades l) :=
    List.sublist_mergeSort tradeLe_trans tradeLe_total hpw (List.filter_sublist l)
  have hsub2 : List.Sublist (l.filter (fun t => decide (t.timestamp = q)))
      ((sortTrades l).filter (fun t => decide (t.timestamp = q))) := by
    have h1 := hsub.filter (fun t => decide (t.timestamp = q))
    rwa [List.filter_eq_self.mpr hmemp] at h1
  have hperm : List.Perm ((sortTrades l).filter (fun t => decide (t.timestamp = q)))
      (l.filter (fun t => decide (t.timestamp = q))) :=
    (List.mergeSort_perm l tradeLe).filter _
  exact (hsub2.eq_of_length hperm.length_eq.symm).symm

theorem calculateBuyingPower_congr_sort (s : AccountSettings) {l₁ l₂ : List Trade}
    (h : sortTrades l₁ = sortTrades l₂) :
    calculateBuyingPower s l₁ = calculateBuyingPower s l₂ := by
  unfold calculateBuyingPower replayState
  rw [h]

/-! ## Claim theorems -/

/-- C2: across the replay of any well-formed trade list (positive quantity,
non-negative price and fees), `dtbpUsed` is non-decreasing step by step,
exit trades leave it exactly unchanged, and the final remaining DTBP
(`dtbpCap - dtbpUsed`) is at most the starting cap minus the sum of the
entry consumptions. -/
theorem dtbpUsed_monotone (s : AccountSettings) (trades : List Trade)
    (hwf : ∀ t ∈ trades, 0 < t.quantity ∧ 0 ≤ t.price ∧ 0 ≤ t.fees) :
    (∀ n : ℕ, (statesAfter s trades n).dtbpUsed ≤ (statesAfter s trades (n + 1)).dtbpUsed)
    ∧ (∀ (n : ℕ) (h : n < (sortTrades trades).length),
        ((sortTrades trades).get ⟨n, h⟩).side.isExit = true →
          (statesAfter s trades (n + 1)).dtbpUsed = (statesAfter s trades n).dtbpUsed)
    ∧ dtbpCap s - (replayState s trades).dtbpUsed
        ≤ dtbpCap s - ((trades.filter (fun t => t.side.isEntry)).map dtbpConsumption).sum := by
  have hwf' : ∀ t ∈ sortTrades trades, 0 ≤ totalCost t := by
    intro t ht
    unfold sortTrades at ht
    obtain ⟨hq, hp, hf⟩ := hwf t (List.mem_mergeSort.mp ht)
    exact totalCost_nonneg t hq hp hf
  refine ⟨?_, ?_, ?_⟩
  · intro n
    by_cases h : n < (sortTrades trades).length
    · rw [statesAfter_succ_of_lt s trades n h]
      exact dtbpUsed_step_mono _ _ _ (hwf' _ (List.get_mem _ _ h))
    · rw [statesAfter_of_length_le s trades n (le_of_not_lt h),
        statesAfter_of_length_le s trades (n + 1) (by omega)]
  · intro n h hexit
    rw [statesAfter_succ_of_lt s trades n h]
    show newDtbpUsed _ _ = _
    have hne := Side.isEntry_eq_false_of_isExit hexit
    simp only [List.get_eq_getElem] at hne
    simp [newDtbpUsed, hne]
  · have h1 : (replayState s trades).dtbpUsed
        = (((sortTrades trades).filter (fun t => t.side.isEntry)).map dtbpConsumption).sum := by
      unfold replayState
      rw [dtbpUsed_foldl_eq]
      simp [initState]
    have h2 : (((sortTrades trades).filter (fun t => t.side.isEntry)).map dtbpConsumption).sum
        = ((trades.filter (fun t => t.side.isEntry)).map dtbpConsumption).sum :=
      List.Perm.sum_eq (((List.mergeSort_perm trades tradeLe).filter _).map _)
    rw [h1, h2]

/-- C3 (amended): the canonical engine's `stockBP` and `optionBP` are
non-negative for every input, and the conservative variant's `optionBP` is
non-negative; the conservative variant's `stockBP` carries no clamp (see the
counterexample) and is excluded here. -/
theorem capacity_clamp (s : AccountSettings) (trades : List Trade) :
    0 ≤ (calculateBuyingPower s trades).stockBP
    ∧ 0 ≤ (calculateBuyingPower s trades).optionBP
    ∧ 0 ≤ (calculateBuyingPowerConservative s trades).optionBP := by
  refine ⟨?_, ?_, ?_⟩
  · show (0 : ℚ) ≤ min (max 0 _) (max 0 _ * 4)
    exact le_min (le_max_left _ _) (mul_nonneg (le_max_left _ _) (by norm_num))
  · exact le_max_left _ _
  · exact le_max_left _ _

/-- C4 (amended): for every non-option trade whose upper-cased symbol is in
`SPECIAL_MARGIN_REQS`, the applied margin requirement percentage is the
table value, except that sell-short entries are raised to at least 40%
(`max v 0.40`); the table takes precedence over the generic short-sale and
leveraged-ETF rules. -/
theorem reqPercent_special_table (t : Trade) (v : ℚ)
    (hno : ¬ t.instrument = InstrumentType.OPTION)
    (hv : SPECIAL_MARGIN_REQS (strUpper t.symbol) = some v) :
    reqPercentOf t = if t.side = Side.SELL_SHORT then max v 0.40 else v := by
  have hvne : v ≠ 0 := SPECIAL_MARGIN_REQS_ne_zero hv
  have hs : specialReq t = v := by simp [specialReq, hv]
  simp [reqPercentOf, hno, hs, hvne]

/-- C5 (amended): an exit trade reduces the running maintenance requirement
by exactly `notional * reqPercent`; the engine applies no clamp at zero, so
the running requirement may become negative (see the counterexample). -/
theorem exit_releases_maintenanceReq (cap : ℚ) (st : EngineState) (t : Trade)
    (hexit : t.side.isExit = true) :
    (processTrade cap st t).currentMaintenanceReq
      = st.currentMaintenanceReq - tradeNotional t * reqPercentOf t := by
  show newMaintenanceReq st t = _
  simp [newMaintenanceReq, Side.isEntry_eq_false_of_isExit hexit]

/-- C6: the starting DTBP cap is the broker-reported override exactly when
it is present and strictly positive; otherwise it is
`max 0 (equity - maintReq)` times 4 (PDT) or 2 (non-PDT), and in that
computed case it is non-negative. -/
theorem dtbpCap_resolution (s : AccountSettings) :
    (∀ d, s.startOfDayDTBP = some d → 0 < d → dtbpCap s = d)
    ∧ ((s.startOfDayDTBP = none ∨ ∃ d, s.startOfDayDTBP = some d ∧ d ≤ 0) →
        dtbpCap s = max 0 (s.startOfDayEquity - s.startOfDayMaintReq)
            * (if s.isPDT then 4 else 2)
        ∧ 0 ≤ dtbpCap s) := by
  constructor
  · intro d hd hpos
    simp only [dtbpCap, hd]
    rw [if_pos ⟨ne_of_gt hpos, hpos⟩]
  · intro h
    have hcomp : dtbpCap s = max 0 (s.startOfDayEquity - s.startOfDayMaintReq)
        * (if s.isPDT then 4 else 2) := by
      rcases h with h | ⟨d, hd, hle⟩
      · simp only [dtbpCap, h, maintenanceExcessStart]
        cases hb : s.isPDT <;> simp [hb]
      · simp only [dtbpCap, hd, maintenanceExcessStart]
        rw [if_neg (by rintro ⟨h1, h2⟩; exact absurd h2 (not_lt.mpr hle))]
        cases hb : s.isPDT <;> simp [hb]
    refine ⟨hcomp, ?_⟩
    rw [hcomp]
    exact mul_nonneg (le_max_left _ _) (by split_ifs <;> norm_num)

/-- C7 (amended): a leveraged-ETF entry with leverage factor above 1
consumes `totalCost * min(leverageFactor, 4)` of DTBP in the canonical
engine, the multiplier never exceeding 4; the conservative variant instead
multiplies by the uncapped factor only under the Schwab broker rule and
consumes plain `totalCost` otherwise. -/
theorem leveraged_entry_consumption (cap : ℚ) (s : AccountSettings)
    (st : EngineState) (cst : ConsState) (t : Trade)
    (hinstr : t.instrument = InstrumentType.ETF_LEVERAGED)
    (hentry : t.side.isEntry = true)
    (hlf : 1 < leverageFactorOf t) :
    (processTrade cap st t).dtbpUsed
        = st.dtbpUsed + totalCost t * min (leverageFactorOf t) 4
    ∧ min (leverageFactorOf t) 4 ≤ 4
    ∧ (processTradeCons s cap cst t).dtbpUsed
        = cst.dtbpUsed + (if s.broker = BrokerType.SCHWAB_TOS
            then totalCost t * leverageFactorOf t else totalCost t) := by
  have hno : ¬ t.instrument = InstrumentType.OPTION := by simp [hinstr]
  refine ⟨?_, min_le_right _ _, ?_⟩
  · show newDtbpUsed st t = _
    simp [newDtbpUsed, hentry, dtbpConsumption, hinstr, hlf, hno]
  · show consNewDtbpUsed s cst t = _
    by_cases hb : s.broker = BrokerType.SCHWAB_TOS
    · simp [consNewDtbpUsed, hentry, consConsumption, hinstr, hlf, hno, hb]
    · simp [consNewDtbpUsed, hentry, consConsumption, hinstr, hlf, hno, hb]

/-- C8: the trade sequencer is a permutation of the input (nothing dropped
or duplicated), sorted by timestamp ascending, stable on equal timestamps
(the subsequence of any fixed timestamp is preserved verbatim), and two
input lists that are permutations of each other with pairwise-distinct
timestamps produce identical engine results. -/
theorem trade_sequencer_spec (s : AccountSettings) (l₁ l₂ : List Trade) :
    List.Perm (sortTrades l₁) l₁
    ∧ (sortTrades l₁).Pairwise (fun a b => a.timestamp ≤ b.timestamp)
    ∧ (∀ q : ℚ, (sortTrades l₁).filter (fun t => decide (t.timestamp = q))
        = l₁.filter (fun t => decide (t.timestamp = q)))
    ∧ (List.Perm l₁ l₂ → (l₁.map Trade.timestamp).Nodup →
        calculateBuyingPower s l₁ = calculateBuyingPower s l₂) :=
  ⟨List.mergeSort_perm l₁ tradeLe, sortTrades_pairwise_le l₁,
    sortTrades_stable_filter l₁,
    fun hp hnd => calculateBuyingPower_congr_sort s (sortTrades_eq_of_perm hp hnd)⟩

/-- C9: if on some trade of the replay the running equity drops below the
running maintenance requirement, the returned warnings list contains the
margin-call warning exactly once (the warnings are de-duplicated keeping
first occurrences). -/
theorem margin_call_warned_once (s : AccountSettings) (trades : List Trade)
    (h : ∃ n, n < (sortTrades trades).length ∧
      (statesAfter s trades (n + 1)).currentEquity
        - (statesAfter s trades (n + 1)).currentMaintenanceReq < 0) :
    ((calculateBuyingPower s trades).warnings).count marginCallMsg = 1 := by
  obtain ⟨n, hn, hlt⟩ := h
  have hmem1 : marginCallMsg ∈ (statesAfter s trades (n + 1)).warnings := by
    rw [statesAfter_succ_of_lt s trades n hn] at hlt ⊢
    exact marginCall_mem_processTrade _ _ _ hlt
  have hmem : marginCallMsg ∈ (replayState s trades).warnings := by
    rw [replayState_eq_foldl_drop s trades (n + 1)]
    exact mem_warnings_foldl _ _ _ hmem1
  have hmem2 : marginCallMsg ∈
      (if (min (max 0 (dtbpCap s - (replayState s trades).dtbpUsed))
            (max 0 ((replayState s trades).currentEquity
              - (replayState s trades).currentMaintenanceReq) * 4) ≤ 0)
        then (replayState s trades).warnings ++ [bpDepletedMsg]
        else (replayState s trades).warnings) := by
    split_ifs <;> simp [hmem]
  show (dedupFirst _).count marginCallMsg = 1
  rw [count_dedupFirst, if_pos hmem2]

/-- C10: an exit trade on a symbol with no open position still reduces the
running maintenance requirement by `notional * reqPercent` and subtracts the
fees from equity, realizing no profit or loss. -/
theorem exit_without_position (cap : ℚ) (st : EngineState) (t : Trade)
    (hexit : t.side.isExit = true)
    (hnopos : posLookup st.openPositions (strUpper t.symbol) = none) :
    (processTrade cap st t).currentMaintenanceReq
        = st.currentMaintenanceReq - tradeNotional t * reqPercentOf t
    ∧ (processTrade cap st t).currentEquity = st.currentEquity - t.fees := by
  have hne := Side.isEntry_eq_false_of_isExit hexit
  constructor
  · show newMaintenanceReq st t = _
    simp [newMaintenanceReq, hne]
  · show newEquity st t = _
    simp [newEquity, exitPnl, hne, hnopos]

/-! ## Concrete evaluations: the Scenario 1 conflict, counterexamples,
and witnesses -/

/-- C1: replaying `BUY 100 SPY @ 100, fees 0` from the default settings
(equity 30000, maintenance 0, PDT, no override) yields `stockBP = 108000`,
not the 110000 asserted by the spec and by the repository's own invariant
test: SPY's 30% special margin requirement leaves a final excess of 27000,
so the `finalExcess * 4 = 108000` bound undercuts `120000 - 10000`. -/
theorem scenario1_spy_stockBP :
    (calculateBuyingPower DEFAULT_SETTINGS [scenario1Trade]).stockBP = 108000
    ∧ ¬ (calculateBuyingPower DEFAULT_SETTINGS [scenario1Trade]).stockBP = 110000 := by
  have h : (calculateBuyingPower DEFAULT_SETTINGS [scenario1Trade]).stockBP = 108000 := by
    simp +decide only [calculateBuyingPower, replayState, sortTrades,
      List.mergeSort_singleton, List.foldl_cons, List.foldl_nil, processTrade, initState,
      DEFAULT_SETTINGS, scenario1Trade, newDtbpUsed, newEquity, newMaintenanceReq,
      dtbpConsumption, totalCost, tradeNotional, multiplierOf, reqPercentOf, specialReq,
      SPECIAL_MARGIN_REQS, strUpper, charUpper, leverageFactorOf, exitPnl, dtbpCap,
      maintenanceExcessStart, Side.isEntry]
    norm_num
  refine ⟨h, ?_⟩
  rw [h]
  norm_num

/-- C3 counterexample: the conservative variant returns a negative
`stockBP` for a zero-equity account that buys 100 of stock, refuting the
claim that `stockBP ≥ 0` holds for every input of both implementations. -/
theorem conservative_stockBP_negative :
    (calculateBuyingPowerConservative zeroSettings [smallBuy]).stockBP = -100
    ∧ ¬ (0 ≤ (calculateBuyingPowerConservative zeroSettings [smallBuy]).stockBP) := by
  have h : (calculateBuyingPowerConservative zeroSettings [smallBuy]).stockBP = -100 := by
    simp +decide only [calculateBuyingPowerConservative, consReplayState, sortTrades,
      List.mergeSort_singleton, List.foldl_cons, List.foldl_nil, processTradeCons,
      consInitState, zeroSettings, smallBuy, consNewDtbpUsed, consConsumption,
      consNewSpendable, consNewPending, totalCost, tradeNotional, multiplierOf,
      leverageFactorOf, dtbpCap, maintenanceExcessStart, Side.isEntry,
      Side.requiresCashOutlay]
    norm_num
  refine ⟨h, ?_⟩
  rw [h]
  norm_num

/-- C4 counterexample: the sell-short `shortSpy` hits the special table
entry `SPY ↦ 0.30`, yet the applied requirement percentage is 0.40 (the
short-entry floor `max(0.30, 0.40)`), not the table's fixed 0.30. -/
theorem special_short_reqPercent_counterexample :
    SPECIAL_MARGIN_REQS (strUpper shortSpy.symbol) = some 0.30
    ∧ reqPercentOf shortSpy = 0.40
    ∧ ¬ reqPercentOf shortSpy = 0.30 := by
  refine ⟨by simp +decide [shortSpy, SPECIAL_MARGIN_REQS, strUpper, charUpper], ?_, ?_⟩
  · simp +decide only [reqPercentOf, specialReq, shortSpy, SPECIAL_MARGIN_REQS,
      strUpper, charUpper]
    norm_num
  · simp +decide only [reqPercentOf, specialReq, shortSpy, SPECIAL_MARGIN_REQS,
      strUpper, charUpper]
    norm_num

/-- C4 witness: the amended rule instantiated on `shortSpy`. -/
theorem reqPercent_special_table_witness :
    ¬ shortSpy.instrument = InstrumentType.OPTION
    ∧ reqPercentOf shortSpy
        = if shortSpy.side = Side.SELL_SHORT then max 0.30 0.40 else 0.30 :=
  ⟨by simp [shortSpy],
    reqPercent_special_table shortSpy 0.30 (by simp [shortSpy])
      (by simp +decide [shortSpy, SPECIAL_MARGIN_REQS, strUpper, charUpper])⟩

/-- C5 counterexample: a sell with no prior position drives the running
maintenance requirement to −2500 (no clamp at zero). -/
theorem maintenanceReq_negative_counterexample :
    (replayState zeroSettings [tSellNoPos]).currentMaintenanceReq = -2500
    ∧ (replayState zeroSettings [tSellNoPos]).currentMaintenanceReq < 0 := by
  have h : (replayState zeroSettings [tSellNoPos]).currentMaintenanceReq = -2500 := by
    simp +decide only [replayState, sortTrades, List.mergeSort_singleton,
      List.foldl_cons, List.foldl_nil, processTrade, initState, zeroSettings, tSellNoPos,
      newMaintenanceReq, totalCost, tradeNotional, multiplierOf, reqPercentOf, specialReq,
      SPECIAL_MARGIN_REQS, strUpper, charUpper, leverageFactorOf, Side.isEntry]
    norm_num
  refine ⟨h, ?_⟩
  rw [h]
  norm_num

/-- C5 witness: the amended per-step release rule instantiated on a
concrete exit. -/
theorem exit_releases_maintenanceReq_witness :
    Side.isExit tSellNoPos.side = true
    ∧ (processTrade 0 (initState DEFAULT_SETTINGS) tSellNoPos).currentMaintenanceReq
        = (initState DEFAULT_SETTINGS).currentMaintenanceReq
            - tradeNotional tSellNoPos * reqPercentOf tSellNoPos :=
  ⟨by decide, exit_releases_maintenanceReq 0 _ tSellNoPos (by decide)⟩

/-- C2 witness: the monotonicity statement instantiated on Scenario 1. -/
theorem dtbpUsed_monotone_witness :
    (statesAfter DEFAULT_SETTINGS [scenario1Trade] 0).dtbpUsed
      ≤ (statesAfter DEFAULT_SETTINGS [scenario1Trade] 1).dtbpUsed := by
  refine (dtbpUsed_monotone DEFAULT_SETTINGS [scenario1Trade] ?_).1 0
  intro t ht
  rw [List.mem_singleton] at ht
  subst ht
  exact ⟨by norm_num [scenario1Trade], by norm_num [scenario1Trade],
    by norm_num [scenario1Trade]⟩

/-- C6 witness: a positive override wins; absent override computes
`4 * max 0 (30000 - 0) = 120000`. -/
theorem dtbpCap_resolution_witness :
    dtbpCap overrideSettings = 5000 ∧ dtbpCap computedSettings = 120000 := by
  constructor
  · exact (dtbpCap_resolution overrideSettings).1 5000 rfl (by norm_num)
  · have h := ((dtbpCap_resolution computedSettings).2 (Or.inl rfl)).1
    rw [h]
    norm_num [computedSettings, DEFAULT_SETTINGS]

/-- C7 counterexample: in the conservative variant under the generic FINRA
broker, a 3x leveraged-ETF entry of notional 1000 consumes 1000 of DTBP,
not `totalCost * min(3, 4) = 3000` as the claim asserts for every
leveraged entry. -/
theorem conservative_leverage_counterexample :
    (consReplayState DEFAULT_SETTINGS [levTrade3x]).dtbpUsed = 1000
    ∧ totalCost levTrade3x * min (leverageFactorOf levTrade3x) 4 = 3000
    ∧ ¬ (consReplayState DEFAULT_SETTINGS [levTrade3x]).dtbpUsed
        = totalCost levTrade3x * min (leverageFactorOf levTrade3x) 4 := by
  have h1 : (consReplayState DEFAULT_SETTINGS [levTrade3x]).dtbpUsed = 1000 := by
    simp +decide only [consReplayState, sortTrades, List.mergeSort_singleton,
      List.foldl_cons, List.foldl_nil, processTradeCons, consInitState, DEFAULT_SETTINGS,
      levTrade3x, consNewDtbpUsed, consConsumption, totalCost, tradeNotional,
      multiplierOf, leverageFactorOf, Side.isEntry]
    norm_num
  have h2 : totalCost levTrade3x * min (leverageFactorOf levTrade3x) 4 = 3000 := by
    simp +decide only [totalCost, tradeNotional, multiplierOf, leverageFactorOf, levTrade3x]
    norm_num
  refine ⟨h1, h2, ?_⟩
  rw [h1, h2]
  norm_num

/-- C7 witness: the amended consumption rule instantiated on the 3x trade:
the canonical engine consumes 3000, and the multiplier is capped at 4. -/
theorem leveraged_entry_consumption_witness :
    (processTrade 0 (initState DEFAULT_SETTINGS) levTrade3x).dtbpUsed
        = (initState DEFAULT_SETTINGS).dtbpUsed
            + totalCost levTrade3x * min (leverageFactorOf levTrade3x) 4
    ∧ min (leverageFactorOf levTrade3x) 4 ≤ 4 := by
  have h := leveraged_entry_consumption 0 DEFAULT_SETTINGS (initState DEFAULT_SETTINGS)
    (consInitState DEFAULT_SETTINGS) levTrade3x rfl (by decide)
    (by norm_num [leverageFactorOf, levTrade3x])
  exact ⟨h.1, h.2.1⟩

/-- C8 witness: two distinct-timestamp trades given in either order produce
the same result. -/
theorem trade_sequencer_spec_witness :
    calculateBuyingPower DEFAULT_SETTINGS [wTradeA, wTradeB]
      = calculateBuyingPower DEFAULT_SETTINGS [wTradeB, wTradeA] :=
  (trade_sequencer_spec DEFAULT_SETTINGS [wTradeA, wTradeB] [wTradeB, wTradeA]).2.2.2
    (List.Perm.swap wTradeB wTradeA [])
    (by norm_num [wTradeA, wTradeB])

/-- C9 witness: with equity 1000, the first (and only) trade of Scenario 1
triggers the margin-call prediction, and the warning appears exactly once. -/
theorem margin_call_warned_once_witness :
    ((calculateBuyingPower lowEquitySettings [scenario1Trade]).warnings).count
      marginCallMsg = 1 := by
  refine margin_call_warned_once lowEquitySettings [scenario1Trade] ⟨0, ?_, ?_⟩
  · simp [sortTrades]
  · simp +decide only [statesAfter, sortTrades, List.mergeSort_singleton,
      List.take_succ_cons, List.take_zero, List.foldl_cons, List.foldl_nil, processTrade,
      initState, lowEquitySettings, DEFAULT_SETTINGS, scenario1Trade, newEquity,
      newMaintenanceReq, totalCost, tradeNotional, multiplierOf, reqPercentOf, specialReq,
      SPECIAL_MARGIN_REQS, strUpper, charUpper, leverageFactorOf, exitPnl, Side.isEntry]
    norm_num

/-- C10 witness: the no-position exit rule instantiated on the empty
starting position map. -/
theorem exit_without_position_witness :
    (processTrade 0 (initState zeroSettings) tSellNoPos).currentMaintenanceReq
        = (initState zeroSettings).currentMaintenanceReq
            - tradeNotional tSellNoPos * reqPercentOf tSellNoPos
    ∧ (processTrade 0 (initState zeroSettings) tSellNoPos).currentEquity
        = (initState zeroSettings).currentEquity - tSellNoPos.fees :=
  exit_without_position 0 (initState zeroSettings) tSellNoPos (by decide) rfl
